import Mathlib

/-!
Verification of the TrustMed disclosure-authorization subsystem.

The definitions below are a shallow embedding of the JavaScript source:
SQL tables become lists of rows, each controller or model function becomes
a Lean function threading the database state explicitly, thrown `AppError`s
become `Except` errors carrying the message and HTTP status code, and the
field-level cipher is embedded with its guards, hex encoding, block/padding
structure and failure sentinel taken from the source (the AES-256-CBC keyed
block permutation itself and the UTF-8 byte serialization live in external
libraries, so they are modelled by concrete invertible stand-ins that
preserve exactly the structure the source relies on: determinism,
invertibility, 16-byte blocks with PKCS#7 padding, and a lowercase-hex
output alphabet).
-/

namespace TrustMed

/-! ## Data model (scripts/dbshema.sql) -/

/-- One row of `insurance_allocations`: the company to patient relationship.
Status is stored numerically (0 pending, 1 approved, 2 rejected), matching
the values written by `parseStatus` and read by `formatStatus`. -/
structure AllocationRow where
  alloc_id : Nat
  company_id : String
  patient_id : String
  status : Nat
  notes : Option String
  deriving Repr, DecidableEq

/-- One row of `data_requests` (the disclosure-request ledger). Status is
stored numerically (0 pending, 1 approved, 2 rejected), as written by
`dataRequest.model.js`. -/
structure DataRequestRow where
  request_id : String
  company_id : String
  patient_id : String
  purpose : String
  status : Nat
  response_notes : Option String
  deriving Repr, DecidableEq

/-- One row of `record_requests`, inserted by
`doctor.controller.js/requestMedicalRecords` with a literal string status. -/
structure RecordRequestRow where
  req_id : Nat
  company_id : String
  patient_id : String
  status : String
  deriving Repr, DecidableEq

/-- One row of `approved_records` (the per-record grant store of the schema):
quota and expiry columns exactly as declared in scripts/dbshema.sql. -/
structure ApprovedRecordRow where
  request_id : String
  record_id : String
  approved_by : String
  access_granted_until : Option Nat
  access_count : Nat
  max_access_count : Nat
  deriving Repr, DecidableEq

/-- One row of `records` (the medical-record store), restricted to the
columns the embedded operations consult. -/
structure RecordRow where
  record_id : String
  patient_id : String
  description : String
  deriving Repr, DecidableEq

/-- One row of `audit_logs`, restricted to the columns `logAudit` writes. -/
structure AuditLogRow where
  user_id : String
  action : String
  resource_type : String
  resource_id : String
  deriving Repr, DecidableEq

/-- The shared relational store: one list per table. -/
structure DB where
  allocations : List AllocationRow
  data_requests : List DataRequestRow
  record_requests : List RecordRequestRow
  approved_records : List ApprovedRecordRow
  records : List RecordRow
  audit_logs : List AuditLogRow
  deriving Repr, DecidableEq

/-- An `AppError` as raised by the controllers: message and HTTP status. -/
structure ApiError where
  message : String
  statusCode : Nat
  deriving Repr, DecidableEq

/-- Decidable equality for results, so concrete runs can be settled by
`decide`. -/
instance instDecEqExcept {ε α : Type} [DecidableEq ε] [DecidableEq α] :
    DecidableEq (Except ε α) := fun x y =>
  match x, y with
  | Except.ok a, Except.ok b =>
    if h : a = b then Decidable.isTrue (h ▸ rfl)
    else Decidable.isFalse (fun hc => h (Except.ok.inj hc))
  | Except.error e, Except.error f =>
    if h : e = f then Decidable.isTrue (h ▸ rfl)
    else Decidable.isFalse (fun hc => h (Except.error.inj hc))
  | Except.ok _, Except.error _ =>
    Decidable.isFalse (fun hc => Except.noConfusion hc)
  | Except.error _, Except.ok _ =>
    Decidable.isFalse (fun hc => Except.noConfusion hc)

/-! ## Audit service (src/services/audit.service.js) -/

/-- The underlying `pool.query` INSERT for `audit_logs`. The persistence
layer may fail; `ok` selects which behaviour this call observes (the
JavaScript awaits a promise that either resolves with an insert id or
rejects). On success the row is appended and the fresh insert id returned. -/
def auditPoolInsert (db : DB) (ok : Bool) (row : AuditLogRow) :
    Except String (Nat × DB) :=
  if ok then
    Except.ok (db.audit_logs.length + 1,
      { db with audit_logs := db.audit_logs ++ [row] })
  else
    Except.error "audit persistence failure"

/-- `logAudit` from audit.service.js: the INSERT runs inside try/catch; a
persistence failure is caught, logged to the console, and `null` (here
`none`) is returned. The caller never sees an exception. -/
def logAudit (db : DB) (ok : Bool) (row : AuditLogRow) : Option Nat × DB :=
  match auditPoolInsert db ok row with
  | Except.ok (id, db2) => (some id, db2)
  | Except.error _ => (none, db)

/-! ## Insurance read path (doctor.controller.js/getApprovedRecords) -/

/-- `getApprovedRecords`: the only reader of `approved_records` in the
source. It (1) looks up the request by id, company and `status = 1`,
answering 404 when absent, (2) selects the records of the request patient
whose ids appear in `approved_records` for the request, (3) appends a
`view` audit row, and returns the request row with the records. The source
issues no UPDATE: `access_count`, `max_access_count` and
`access_granted_until` are never read or written on this path. -/
def getApprovedRecords (db : DB) (auditOk : Bool)
    (requestId insuranceId : String) :
    Except ApiError (DataRequestRow × List RecordRow) × DB :=
  match (db.data_requests.filter (fun r =>
      r.request_id == requestId && r.company_id == insuranceId &&
        r.status == 1)) with
  | [] => (Except.error ⟨"Approved request not found", 404⟩, db)
  | req :: _ =>
    let approvedIds := (db.approved_records.filter (fun a =>
      a.request_id == requestId)).map (fun a => a.record_id)
    let recs := db.records.filter (fun r =>
      r.patient_id == req.patient_id && approvedIds.contains r.record_id)
    let audited := logAudit db auditOk
      ⟨insuranceId, "view", "approved_records", requestId⟩
    (Except.ok (req, recs), audited.2)

/-! ## Submission paths -/

/-- The allocation gate used by both routed submission handlers: a row of
`insurance_allocations` for the (patient, company) pair with `status = 1`. -/
def hasApprovedAllocation (db : DB) (patientId companyId : String) : Bool :=
  !(db.allocations.filter (fun a =>
    a.patient_id == patientId && a.company_id == companyId &&
      a.status == 1)).isEmpty

/-- `requestMedicalRecords` from doctor.controller.js: rejects with a 403
`AppError` when no approved allocation connects the patient to the company;
otherwise inserts a `record_requests` row with status `pending`, audits,
and answers the fresh insert id. -/
def requestMedicalRecords (db : DB) (auditOk : Bool)
    (patientId insuranceId : String) : Except ApiError Nat × DB :=
  if !hasApprovedAllocation db patientId insuranceId then
    (Except.error
      ⟨"Patient is not connected to your insurance company", 403⟩, db)
  else
    let newId := db.record_requests.length + 1
    let db1 := { db with record_requests :=
      db.record_requests ++ [⟨newId, insuranceId, patientId, "pending"⟩] }
    let audited := logAudit db1 auditOk
      ⟨insuranceId, "create", "record_request", toString newId⟩
    (Except.ok newId, audited.2)

/-- `createDataRequest` from dataRequest.model.js: inserts a `data_requests`
row with status `0` (pending). The generated `REQ...` id depends on the
wall clock, so it is passed as `freshId`. The model performs no allocation
check of its own. -/
def createDataRequest (db : DB) (freshId companyId patientId purpose : String) :
    DataRequestRow × DB :=
  let row : DataRequestRow := ⟨freshId, companyId, patientId, purpose, 0, none⟩
  (row, { db with data_requests := db.data_requests ++ [row] })

/-- The routed insurance submission handler (`createDataRequest` in
doctor.controller.js, mounted at POST /insurance/requests): checks the
allocation gate, answering 403 when it fails, then delegates to the model
insert and audits. -/
def createDataRequestCtrl (db : DB) (auditOk : Bool)
    (freshId patientId insuranceId purpose : String) :
    Except ApiError DataRequestRow × DB :=
  if !hasApprovedAllocation db patientId insuranceId then
    (Except.error
      ⟨"Patient is not connected to your insurance company", 403⟩, db)
  else
    let created := createDataRequest db freshId insuranceId patientId purpose
    let audited := logAudit created.2 auditOk
      ⟨insuranceId, "create", "data_request", freshId⟩
    (Except.ok created.1, audited.2)

/-! ## Allocation decisions -/

/-- `updateAllocationStatus` from the insurance-allocation model: a SELECT
followed by an unconditional UPDATE. Absent id throws (here a 500 error);
otherwise the status is set with no inspection of the current status, and
`notes || rows[0].notes` keeps the old notes when none are supplied. -/
def updateAllocationStatus (db : DB) (id : Nat) (status : Nat)
    (notes : Option String) : Except ApiError AllocationRow × DB :=
  match db.allocations.find? (fun a => a.alloc_id == id) with
  | none => (Except.error ⟨"Insurance allocation not found", 500⟩, db)
  | some row =>
    let newNotes := match notes with
      | some n => some n
      | none => row.notes
    let db1 := { db with allocations := db.allocations.map (fun a =>
      if a.alloc_id == id then { a with status := status, notes := newNotes }
      else a) }
    (Except.ok { row with status := status, notes := newNotes }, db1)

/-- `updateConnectionStatus` from doctor.controller.js: 404 when no
allocation with this id belongs to the company; otherwise the status is
overwritten unconditionally (`approved` maps to 1, anything else to 2)
together with the notes (`notes || null`). -/
def updateConnectionStatus (db : DB) (auditOk : Bool) (allocationId : Nat)
    (statusStr : String) (notes : Option String) (insuranceId : String) :
    Except ApiError Unit × DB :=
  match db.allocations.find? (fun a =>
      a.alloc_id == allocationId && a.company_id == insuranceId) with
  | none => (Except.error ⟨"Connection request not found", 404⟩, db)
  | some _ =>
    let statusValue := if statusStr == "approved" then 1 else 2
    let db1 := { db with allocations := db.allocations.map (fun a =>
      if a.alloc_id == allocationId then
        { a with status := statusValue, notes := notes } else a) }
    let audited := logAudit db1 auditOk
      ⟨insuranceId, "update", "insurance_allocation", toString allocationId⟩
    (Except.ok (), audited.2)

/-! ## Request review (dataRequest.model.js/updateDataRequestStatus) -/

/-- `updateDataRequestStatus`: a SELECT (throwing when the id is absent)
followed by an unconditional UPDATE of status, response notes and response
date; the stored status is never compared with pending and the affected-row
count is never inspected. The updated row is re-read and returned. -/
def updateDataRequestStatus (db : DB) (id : String) (status : Nat)
    (notes : Option String) : Except ApiError DataRequestRow × DB :=
  match db.data_requests.find? (fun r => r.request_id == id) with
  | none => (Except.error ⟨"Data request not found", 500⟩, db)
  | some row =>
    let db1 := { db with data_requests := db.data_requests.map (fun r =>
      if r.request_id == id then
        { r with status := status, response_notes := notes } else r) }
    (Except.ok { row with status := status, response_notes := notes }, db1)

/-! ## Cipher (src/middleware, encryption middleware)

`encrypt` hex-encodes the AES-256-CBC encryption (fixed key and IV) of the
UTF-8 bytes of the input; `decrypt` reverses this after a structural guard.
The keyed block permutation and the UTF-8 codec are external library code,
so they are modelled here by concrete stand-ins with the same structure:
a bytewise invertible map for the block cipher, PKCS#7 padding on 16-byte
blocks with the same all-or-nothing validation, and a 3-bytes-per-char
serialization in place of UTF-8. Every property proved below depends only
on this shared structure, not on the particular permutation. -/

/-- The `ENCRYPTION_DISABLED` environment flag; false in a deployment that
encrypts (the behaviour the spec describes). -/
def encryptionDisabled : Bool := false

/-- Decimal value of a hex digit character (either case); the inverse of
`hexDigit` on the hex alphabet. -/
def hexDigitVal (c : Char) : Nat :=
  if c.toNat ≤ 57 then c.toNat - 48
  else if c.toNat ≤ 70 then c.toNat - 55
  else c.toNat - 87

/-- Lowercase hex digit for a value below 16 (the hex output encoding
of the Node cipher stream). -/
def hexDigit (n : Nat) : Char :=
  if n < 10 then Char.ofNat (48 + n) else Char.ofNat (87 + n)

/-- Character class `[0-9a-f]` with the `i` flag: also uppercase. -/
def isHexChar (c : Char) : Bool :=
  (48 ≤ c.toNat && c.toNat ≤ 57) || (97 ≤ c.toNat && c.toNat ≤ 102) ||
    (65 ≤ c.toNat && c.toNat ≤ 70)

/-- The guard `/^[0-9a-f]+$/i.test(s)` inside `decrypt`: nonempty and all
hex characters. -/
def hexOnly (s : String) : Bool :=
  !s.toList.isEmpty && s.toList.all isHexChar

/-- `isLikelyEncrypted` from the encryption middleware:
`/^[0-9a-f]{32,}$/i`, at least 32 hex characters. -/
def isLikelyEncrypted (s : String) : Bool :=
  decide (32 ≤ s.toList.length) && s.toList.all isHexChar

/-- Hex encoding of a byte list, two lowercase digits per byte. -/
def hexEncode : List Nat → List Char
  | [] => []
  | b :: bs => hexDigit (b / 16) :: hexDigit (b % 16) :: hexEncode bs

/-- Hex decoding as the Node hex buffer decoder performs it: consume digit
pairs, silently dropping an incomplete trailing digit. -/
def hexDecode : List Char → List Nat
  | a :: b :: rest => (hexDigitVal a * 16 + hexDigitVal b) :: hexDecode rest
  | _ => []

/-- Serialization of one character to three bytes (big-endian codepoint);
the stand-in for UTF-8 encoding. -/
def charToBytes (c : Char) : List Nat :=
  [c.toNat / 65536, c.toNat / 256 % 256, c.toNat % 256]

/-- Serialization of a character list to bytes. -/
def charsToBytes : List Char → List Nat
  | [] => []
  | c :: cs => charToBytes c ++ charsToBytes cs

/-- Byte serialization of a string; the stand-in for UTF-8 encoding. -/
def strToBytes (s : String) : List Nat :=
  charsToBytes s.toList

/-- Deserialization of bytes back to characters, three at a time; the
stand-in for UTF-8 decoding. -/
def bytesToChars : List Nat → List Char
  | a :: b :: c :: rest => Char.ofNat (a * 65536 + b * 256 + c) :: bytesToChars rest
  | _ => []

/-- Deserialization of bytes back to a string. -/
def bytesToStr (bs : List Nat) : String :=
  String.mk (bytesToChars bs)

/-- The keyed byte permutation standing in for the AES-256-CBC block
transformation under the fixed process-wide key and IV. -/
def encByte (b : Nat) : Nat := (b + 173) % 256

/-- Inverse byte permutation (decryption direction). -/
def decByte (b : Nat) : Nat := (b + 83) % 256

/-- PKCS#7 padding to a positive multiple of the 16-byte block size, as the
cipher applies before encrypting. -/
def pkcs7pad (bs : List Nat) : List Nat :=
  bs ++ List.replicate (16 - bs.length % 16) (16 - bs.length % 16)

/-- PKCS#7 padding validation and removal, as `decipher.final` performs it:
the last byte names the padding length, which must be between 1 and 16,
fit in the message, and fill its suffix; otherwise the decryption throws
(`none`). -/
def pkcs7unpad (bs : List Nat) : Option (List Nat) :=
  match bs.reverse with
  | [] => none
  | p :: _ =>
    if p = 0 ∨ 16 < p ∨ bs.length < p then none
    else if (bs.drop (bs.length - p)).all (fun x => x == p) then
      some (bs.take (bs.length - p))
    else none

/-- Block encryption of a byte list: pad, then apply the keyed permutation. -/
def aesEncBytes (bs : List Nat) : List Nat :=
  (pkcs7pad bs).map encByte

/-- Block decryption of a byte list: `decipher.update`/`final` throw
(`none`) unless the input is a positive multiple of the block size and the
padding validates after applying the inverse permutation. -/
def aesDecBytes (bs : List Nat) : Option (List Nat) :=
  if bs.length = 0 ∨ bs.length % 16 ≠ 0 then none
  else pkcs7unpad (bs.map decByte)

/-- `encrypt` from the encryption middleware: empty or disabled input is
returned unchanged; otherwise the byte serialization is block-encrypted
and hex-encoded. -/
def encrypt (text : String) : String :=
  if text = "" ∨ encryptionDisabled then text
  else String.mk (hexEncode (aesEncBytes (strToBytes text)))

/-- `decrypt` from the encryption middleware: empty or disabled input is
returned unchanged; input failing the internal `/^[0-9a-f]+$/i` guard is
assumed to be legacy plaintext and returned unchanged; otherwise the input
is hex-decoded and block-decrypted, and any failure in that step is caught
and replaced by the fixed sentinel string. -/
def decrypt (s : String) : String :=
  if s = "" ∨ encryptionDisabled then s
  else if !hexOnly s then s
  else match aesDecBytes (hexDecode s.toList) with
    | some bs => bytesToStr bs
    | none => "[Encrypted content]"

/-- `getAllRecords` from the record model: maps every row, decrypting the
description only when `isLikelyEncrypted` holds; a decryption failure
yields the sentinel for that row only, never an exception, so the list
query always returns one row per record. -/
def getAllRecords (db : DB) : List RecordRow :=
  db.records.map (fun r =>
    if isLikelyEncrypted r.description then
      { r with description := decrypt r.description }
    else r)

/-! ## Concrete states used to exercise the operations -/

/-- An approved data request for company IN001 and patient PT001. -/
def reqC1 : DataRequestRow := ⟨"REQ1", "IN001", "PT001", "claims", 1, none⟩

/-- A grant for record REC1 under REQ1 with quota 1 and no use so far. -/
def grantC1 : ApprovedRecordRow := ⟨"REQ1", "REC1", "AD001", some 100, 0, 1⟩

/-- The disclosed record REC1 of patient PT001. -/
def recC1 : RecordRow := ⟨"REC1", "PT001", "notes"⟩

/-- A database holding one approved request with one quota-1 grant. -/
def dbC1 : DB := ⟨[], [reqC1], [], [grantC1], [recC1], []⟩

/-- An approved data request for company IN001 and patient PT002. -/
def reqC3 : DataRequestRow := ⟨"REQ2", "IN001", "PT002", "claims", 1, none⟩

/-- A grant whose `access_granted_until` (instant 5) lies in the past for
any read at a later instant, with quota to spare. -/
def grantC3 : ApprovedRecordRow := ⟨"REQ2", "REC2", "AD001", some 5, 0, 5⟩

/-- The disclosed record REC2 of patient PT002. -/
def recC3 : RecordRow := ⟨"REC2", "PT002", "notes2"⟩

/-- A database holding one approved request with one expired grant. -/
def dbC3 : DB := ⟨[], [reqC3], [], [grantC3], [recC3], []⟩

/-- An allocation that is already decided (status 1, approved). -/
def allocC5 : AllocationRow := ⟨1, "IN001", "PT001", 1, some "n"⟩

/-- A database holding only the decided allocation. -/
def dbC5 : DB := ⟨[allocC5], [], [], [], [], []⟩

/-- A data request already in the terminal rejected state (status 2). -/
def reqC6 : DataRequestRow := ⟨"REQ9", "IN001", "PT001", "p", 2, some "denied"⟩

/-- A database holding only the rejected request. -/
def dbC6 : DB := ⟨[], [reqC6], [], [], [], []⟩

/-- The empty database: in particular, no allocation approves any
company and patient pair. -/
def dbEmpty : DB := ⟨[], [], [], [], [], []⟩

/-- A database with one approved allocation for (PT001, IN001). -/
def dbAlloc : DB := ⟨[⟨1, "IN001", "PT001", 1, none⟩], [], [], [], [], []⟩

/-! ## Supporting lemmas -/

/-- Every character codepoint fits below the Unicode bound. -/
theorem char_toNat_lt (c : Char) : c.toNat < 1114112 := by
  have h := c.valid
  rcases h with h | ⟨h1, h2⟩
  · simp [Char.toNat]; omega
  · simp [Char.toNat]; omega

/-- The byte serialization produces only bytes. -/
theorem charsToBytes_lt (cs : List Char) : ∀ b ∈ charsToBytes cs, b < 256 := by
  induction cs with
  | nil => intro b hb; simp [charsToBytes] at hb
  | cons c cs ih =>
    intro b hb
    simp only [charsToBytes, charToBytes, List.mem_append] at hb
    rcases hb with hb | hb
    · have hc := char_toNat_lt c
      simp only [List.mem_cons, List.mem_singleton] at hb
      rcases hb with rfl | rfl | rfl | h
      · omega
      · omega
      · omega
      · simp at h
    · exact ih b hb

/-- The byte serialization is left-invertible. -/
theorem bytesToChars_charsToBytes (cs : List Char) :
    bytesToChars (charsToBytes cs) = cs := by
  induction cs with
  | nil => rfl
  | cons c cs ih =>
    show bytesToChars (charToBytes c ++ charsToBytes cs) = c :: cs
    simp only [charToBytes, List.cons_append, List.nil_append, bytesToChars]
    have harith : c.toNat / 65536 * 65536 + c.toNat / 256 % 256 * 256 +
        c.toNat % 256 = c.toNat := by omega
    rw [harith, Char.ofNat_toNat]
    simpa using ih

/-- The hex digit of a value below 16 decodes back to it. -/
theorem hexDigitVal_hexDigit (n : Nat) (h : n < 16) :
    hexDigitVal (hexDigit n) = n := by
  interval_cases n <;> decide

/-- The hex digit of a value below 16 lies in the hex character class. -/
theorem isHexChar_hexDigit (n : Nat) (h : n < 16) :
    isHexChar (hexDigit n) = true := by
  interval_cases n <;> decide

/-- Hex decoding inverts hex encoding on byte lists. -/
theorem hexDecode_hexEncode (bs : List Nat) (h : ∀ b ∈ bs, b < 256) :
    hexDecode (hexEncode bs) = bs := by
  induction bs with
  | nil => rfl
  | cons b bs ih =>
    have hb : b < 256 := h b (by simp)
    show hexDecode (hexDigit (b / 16) :: hexDigit (b % 16) :: hexEncode bs) =
      b :: bs
    simp only [hexDecode]
    rw [hexDigitVal_hexDigit _ (by omega), hexDigitVal_hexDigit _ (by omega)]
    have hdm : b / 16 * 16 + b % 16 = b := by omega
    rw [hdm, ih (fun x hx => h x (by simp [hx]))]

/-- Hex encoding of a byte list stays inside the hex character class. -/
theorem hexEncode_all_hex (bs : List Nat) (h : ∀ b ∈ bs, b < 256) :
    (hexEncode bs).all isHexChar = true := by
  induction bs with
  | nil => rfl
  | cons b bs ih =>
    have hb : b < 256 := h b (by simp)
    show (hexDigit (b / 16) :: hexDigit (b % 16) :: hexEncode bs).all
      isHexChar = true
    simp only [List.all_cons, Bool.and_eq_true]
    refine ⟨isHexChar_hexDigit _ (by omega), isHexChar_hexDigit _ (by omega), ?_⟩
    exact ih (fun x hx => h x (by simp [hx]))

/-- Hex encoding of a nonempty byte list is nonempty. -/
theorem hexEncode_ne_nil (b : Nat) (bs : List Nat) :
    hexEncode (b :: bs) ≠ [] := by
  simp [hexEncode]

/-- The inverse byte permutation undoes the forward one. -/
theorem decByte_encByte (b : Nat) (h : b < 256) : decByte (encByte b) = b := by
  simp only [encByte, decByte]
  omega

/-- The forward byte permutation produces bytes. -/
theorem encByte_lt (b : Nat) : encByte b < 256 := by
  simp only [encByte]
  omega

/-- Bytewise decryption undoes bytewise encryption on byte lists. -/
theorem map_decByte_map_encByte (bs : List Nat) (h : ∀ b ∈ bs, b < 256) :
    (bs.map encByte).map decByte = bs := by
  induction bs with
  | nil => rfl
  | cons b bs ih =>
    simp only [List.map_cons]
    rw [decByte_encByte b (h b (by simp)), ih (fun x hx => h x (by simp [hx]))]

/-- Length of a PKCS#7-padded message. -/
theorem pkcs7pad_length (bs : List Nat) :
    (pkcs7pad bs).length = bs.length + (16 - bs.length % 16) := by
  simp [pkcs7pad]

/-- PKCS#7 padding keeps every element a byte. -/
theorem pkcs7pad_lt (bs : List Nat) (h : ∀ b ∈ bs, b < 256) :
    ∀ b ∈ pkcs7pad bs, b < 256 := by
  intro b hb
  simp only [pkcs7pad, List.mem_append, List.mem_replicate] at hb
  rcases hb with hb | ⟨_, rfl⟩
  · exact h b hb
  · omega

/-- PKCS#7 unpadding accepts and removes the padding it added. -/
theorem pkcs7unpad_pkcs7pad (bs : List Nat) :
    pkcs7unpad (pkcs7pad bs) = some bs := by
  set p := 16 - bs.length % 16 with hp
  have hp1 : 1 ≤ p := by omega
  have hp16 : p ≤ 16 := by omega
  obtain ⟨k, hk⟩ : ∃ k, p = k + 1 := ⟨p - 1, by omega⟩
  have hrev : (pkcs7pad bs).reverse =
      p :: (List.replicate k p ++ bs.reverse) := by
    simp only [pkcs7pad, ← hp, List.reverse_append, List.reverse_replicate]
    rw [hk, List.replicate_succ]
    simp
  have hlen : (pkcs7pad bs).length = bs.length + p := by
    simpa using pkcs7pad_length bs
  simp only [pkcs7unpad, hrev]
  rw [if_neg (by omega)]
  have hdrop : (pkcs7pad bs).drop ((pkcs7pad bs).length - p) =
      List.replicate p p := by
    have h1 : (pkcs7pad bs).length - p = bs.length := by omega
    rw [h1]
    simpa only [pkcs7pad, ← hp] using List.drop_left bs (List.replicate p p)
  have htake : (pkcs7pad bs).take ((pkcs7pad bs).length - p) = bs := by
    have h1 : (pkcs7pad bs).length - p = bs.length := by omega
    rw [h1]
    simpa only [pkcs7pad, ← hp] using List.take_left bs (List.replicate p p)
  rw [hdrop, htake]
  rw [if_pos]
  simp [List.all_eq_true, List.mem_replicate]

/-- Block decryption inverts block encryption on byte lists. -/
theorem aesDecBytes_aesEncBytes (bs : List Nat) (h : ∀ b ∈ bs, b < 256) :
    aesDecBytes (aesEncBytes bs) = some bs := by
  have hlen : (aesEncBytes bs).length =
      bs.length + (16 - bs.length % 16) := by
    simp [aesEncBytes, pkcs7pad_length]
  simp only [aesDecBytes]
  rw [if_neg (by omega)]
  simp only [aesEncBytes]
  rw [map_decByte_map_encByte _ (pkcs7pad_lt bs h)]
  exact pkcs7unpad_pkcs7pad bs

/-- Rebuilding a string from its character list gives it back. -/
theorem string_mk_toList (s : String) : String.mk s.toList = s := by
  cases s
  rfl

/-- Decryption inverts encryption on every field value. -/
theorem decrypt_encrypt (v : String) : decrypt (encrypt v) = v := by
  by_cases hv : v = ""
  · subst hv
    rfl
  · have hB : ∀ b ∈ strToBytes v, b < 256 := charsToBytes_lt v.toList
    have hpadlen : (pkcs7pad (strToBytes v)).length =
        (strToBytes v).length + (16 - (strToBytes v).length % 16) :=
      pkcs7pad_length _
    have hEne : ∃ c cs, aesEncBytes (strToBytes v) = c :: cs := by
      cases hE : aesEncBytes (strToBytes v) with
      | nil =>
        have hzero : (aesEncBytes (strToBytes v)).length = 0 := by
          rw [hE]; rfl
        simp only [aesEncBytes, List.length_map] at hzero
        omega
      | cons c cs => exact ⟨c, cs, rfl⟩
    obtain ⟨c, cs, hE⟩ := hEne
    have hE256 : ∀ b ∈ aesEncBytes (strToBytes v), b < 256 := by
      intro b hb
      simp only [aesEncBytes, List.mem_map] at hb
      obtain ⟨x, _, rfl⟩ := hb
      exact encByte_lt x
    rw [encrypt, if_neg (by simp [hv, encryptionDisabled])]
    have htl : (String.mk (hexEncode (aesEncBytes (strToBytes v)))).toList =
        hexEncode (aesEncBytes (strToBytes v)) := rfl
    have hne : String.mk (hexEncode (aesEncBytes (strToBytes v))) ≠ "" := by
      rw [hE]
      intro hcon
      have hlists := congrArg String.toList hcon
      simp only [htl] at hlists
      exact hexEncode_ne_nil c cs (by simpa using hlists)
    have hhex : hexOnly (String.mk (hexEncode (aesEncBytes (strToBytes v)))) =
        true := by
      simp only [hexOnly, htl, Bool.and_eq_true, Bool.not_eq_true']
      refine ⟨?_, hexEncode_all_hex _ hE256⟩
      rw [hE]
      simp [hexEncode]
    rw [decrypt, if_neg (by simp [hne, encryptionDisabled]),
      if_neg (by simp [hhex])]
    rw [htl, hexDecode_hexEncode _ hE256, aesDecBytes_aesEncBytes _ hB]
    simp only [bytesToStr, strToBytes, bytesToChars_charsToBytes]
    exact string_mk_toList v

/-- Decryption is the identity on input that fails the internal hex guard. -/
theorem decrypt_id_nonhex (p : String) (hp : hexOnly p = false) :
    decrypt p = p := by
  by_cases hp0 : p = ""
  · subst hp0; rfl
  · rw [decrypt, if_neg (by simp [hp0, encryptionDisabled]),
      if_pos (by simp [hp])]

/-- Audit logging touches only the audit table, whether or not the INSERT
succeeds. -/
theorem logAudit_tables (db : DB) (ok : Bool) (row : AuditLogRow) :
    ((logAudit db ok row).2).allocations = db.allocations ∧
    ((logAudit db ok row).2).data_requests = db.data_requests ∧
    ((logAudit db ok row).2).record_requests = db.record_requests ∧
    ((logAudit db ok row).2).approved_records = db.approved_records ∧
    ((logAudit db ok row).2).records = db.records := by
  cases ok <;> simp [logAudit, auditPoolInsert]

/-! ## Claims -/

/-- Claim C1. The claim states that a grant with `max_access_count = N`
admits exactly N successful reads through the insurance read path, the
next read failing with a quota-exhausted error, with `access_count`
incremented on each success. On the code this fails: with a quota-1 grant
and `access_count = 0`, the first and the second read both succeed and
`access_count` is still 0 afterwards — the read path never consults or
increments the quota columns. -/
theorem C1_quota_not_enforced :
    grantC1.max_access_count = 1 ∧ grantC1.access_count = 0 ∧
    (getApprovedRecords dbC1 true "REQ1" "IN001").1 =
      Except.ok (reqC1, [recC1]) ∧
    (getApprovedRecords (getApprovedRecords dbC1 true "REQ1" "IN001").2 true
        "REQ1" "IN001").1 = Except.ok (reqC1, [recC1]) ∧
    ((getApprovedRecords (getApprovedRecords dbC1 true "REQ1" "IN001").2 true
        "REQ1" "IN001").2).approved_records = [grantC1] := by
  decide

/-- Claim C2. The claim states that grant consumption is a single atomic
conditional increment of `access_count` guarded by the quota and the
expiry, with the affected-row count as the success criterion. On the code
this fails: the read path performs no write to `approved_records` at all —
for every database, every audit outcome and every request, the grant table
after a read is identical to the grant table before it, so no conditional
consumption update exists anywhere on the path. -/
theorem C2_no_consumption_write (db : DB) (auditOk : Bool)
    (reqId insId : String) :
    ((getApprovedRecords db auditOk reqId insId).2).approved_records =
      db.approved_records := by
  simp only [getApprovedRecords]
  cases (db.data_requests.filter (fun r =>
      r.request_id == reqId && r.company_id == insId && r.status == 1)) with
  | nil => rfl
  | cons req rest => simp [(logAudit_tables db auditOk _).2.2.2.1]

/-- Claim C3. The claim states that a grant whose `granted_until` lies in
the past always yields a deny with reason Expired. On the code this fails:
the read path never consults `access_granted_until` (its query has no time
condition and the handler takes no clock input), so a read against a grant
expired at instant 5 still returns the disclosed record. -/
theorem C3_expiry_not_enforced :
    grantC3.access_granted_until = some 5 ∧
    grantC3.access_count < grantC3.max_access_count ∧
    (getApprovedRecords dbC3 true "REQ2" "IN001").1 =
      Except.ok (reqC3, [recC3]) := by
  decide

/-- Claim C4. For every company and patient pair, submitting a data
request fails with a 403 permission error when no approved allocation
exists for the pair and leaves the database unchanged; when an approved
allocation exists, both routed submission handlers succeed and create a
request row in the pending state (the string `pending` for
`record_requests`, the numeric 0 for `data_requests`). -/
theorem C4_submit_requires_approved_allocation (db : DB) (auditOk : Bool)
    (patientId insuranceId purpose freshId : String) :
    (hasApprovedAllocation db patientId insuranceId = false →
      (requestMedicalRecords db auditOk patientId insuranceId).1 =
        Except.error
          ⟨"Patient is not connected to your insurance company", 403⟩ ∧
      (requestMedicalRecords db auditOk patientId insuranceId).2 = db ∧
      (createDataRequestCtrl db auditOk freshId patientId insuranceId
          purpose).1 =
        Except.error
          ⟨"Patient is not connected to your insurance company", 403⟩ ∧
      (createDataRequestCtrl db auditOk freshId patientId insuranceId
          purpose).2 = db) ∧
    (hasApprovedAllocation db patientId insuranceId = true →
      (requestMedicalRecords db auditOk patientId insuranceId).1 =
        Except.ok (db.record_requests.length + 1) ∧
      ((requestMedicalRecords db auditOk patientId insuranceId).2).record_requests =
        db.record_requests ++
          [⟨db.record_requests.length + 1, insuranceId, patientId,
            "pending"⟩] ∧
      (createDataRequestCtrl db auditOk freshId patientId insuranceId
          purpose).1 =
        Except.ok ⟨freshId, insuranceId, patientId, purpose, 0, none⟩ ∧
      ((createDataRequestCtrl db auditOk freshId patientId insuranceId
          purpose).2).data_requests =
        db.data_requests ++
          [⟨freshId, insuranceId, patientId, purpose, 0, none⟩]) := by
  constructor
  · intro h
    simp only [requestMedicalRecords, createDataRequestCtrl, h]
    simp
  · intro h
    simp only [requestMedicalRecords, createDataRequestCtrl,
      createDataRequest, h]
    refine ⟨rfl, ?_, rfl, ?_⟩
    · exact (logAudit_tables _ auditOk _).2.2.1
    · exact (logAudit_tables _ auditOk _).2.1

/-- Claim C4, witness: with no allocation at all the submission is refused
with 403; with an approved allocation for (PT001, IN001) the routed
handler creates a pending (status 0) request. -/
theorem C4_submit_requires_approved_allocation_witness :
    (requestMedicalRecords dbEmpty true "PT001" "IN001").1 =
      Except.error
        ⟨"Patient is not connected to your insurance company", 403⟩ ∧
    (createDataRequestCtrl dbAlloc true "REQ7" "PT001" "IN001"
        "audit-review").1 =
      Except.ok ⟨"REQ7", "IN001", "PT001", "audit-review", 0, none⟩ := by
  have h1 : hasApprovedAllocation dbEmpty "PT001" "IN001" = false := by decide
  have h2 : hasApprovedAllocation dbAlloc "PT001" "IN001" = true := by decide
  exact ⟨((C4_submit_requires_approved_allocation dbEmpty true "PT001"
      "IN001" "p" "REQ7").1 h1).1,
    (((C4_submit_requires_approved_allocation dbAlloc true "PT001" "IN001"
      "audit-review" "REQ7").2 h2).2.2).1⟩

/-- Claim C5, counterexample. The claim states that deciding a non-pending
allocation always fails with an invalid-state error and leaves the status
unchanged. On the code it fails: allocation 1 is already approved
(status 1), yet the decide call succeeds and overwrites the status to
rejected (status 2). -/
theorem C5_counterexample :
    (updateAllocationStatus dbC5 1 2 none).1 =
      Except.ok ⟨1, "IN001", "PT001", 2, some "n"⟩ ∧
    ((updateAllocationStatus dbC5 1 2 none).2).allocations =
      [⟨1, "IN001", "PT001", 2, some "n"⟩] ∧
    dbC5.allocations = [⟨1, "IN001", "PT001", 1, some "n"⟩] := by
  decide

/-- Claim C5, amended. Deciding an absent allocation fails with a
not-found error and changes nothing; deciding any existing allocation
succeeds unconditionally, overwriting its status with the requested value
regardless of the stored status — no invalid-state check exists on either
decide path (the allocation model or the connection-status handler). -/
theorem C5_decide_unconditional (db : DB) (auditOk : Bool) (id status : Nat)
    (statusStr : String) (notes : Option String) (cid : String) :
    (db.allocations.find? (fun a => a.alloc_id == id) = none →
      (updateAllocationStatus db id status notes).1 =
        Except.error ⟨"Insurance allocation not found", 500⟩ ∧
      (updateAllocationStatus db id status notes).2 = db) ∧
    (∀ row, db.allocations.find? (fun a => a.alloc_id == id) = some row →
      (updateAllocationStatus db id status notes).1 =
        Except.ok { row with
          status := status
          notes := (match notes with
            | some n => some n
            | none => row.notes) }) ∧
    (db.allocations.find? (fun a =>
        a.alloc_id == id && a.company_id == cid) = none →
      (updateConnectionStatus db auditOk id statusStr notes cid).1 =
        Except.error ⟨"Connection request not found", 404⟩) ∧
    (∀ row, db.allocations.find? (fun a =>
        a.alloc_id == id && a.company_id == cid) = some row →
      (updateConnectionStatus db auditOk id statusStr notes cid).1 =
        Except.ok ()) := by
  refine ⟨?_, ?_, ?_, ?_⟩
  · intro h
    simp [updateAllocationStatus, h]
  · intro row h
    simp [updateAllocationStatus, h]
  · intro h
    simp [updateConnectionStatus, h]
  · intro row h
    simp [updateConnectionStatus, h]

/-- Claim C5, amended, witness: an unknown id is refused with the
not-found error, and a decide against the already-approved allocation 1
succeeds with the overwritten status. -/
theorem C5_decide_unconditional_witness :
    (updateAllocationStatus dbC5 2 2 none).1 =
      Except.error ⟨"Insurance allocation not found", 500⟩ ∧
    (updateAllocationStatus dbC5 1 0 (some "x")).1 =
      Except.ok ⟨1, "IN001", "PT001", 0, some "x"⟩ := by
  have h1 : dbC5.allocations.find? (fun a => a.alloc_id == 2) = none := by
    decide
  have h2 : dbC5.allocations.find? (fun a => a.alloc_id == 1) =
      some ⟨1, "IN001", "PT001", 1, some "n"⟩ := by decide
  exact ⟨((C5_decide_unconditional dbC5 true 2 2 "approved" none
      "IN001").1 h1).1,
    (C5_decide_unconditional dbC5 true 1 0 "approved" (some "x")
      "IN001").2.1 ⟨1, "IN001", "PT001", 1, some "n"⟩ h2⟩

/-- Claim C6, counterexample. The claim states that reviewing a request
whose stored status is not pending fails with an invalid-state error and
does not modify it. On the code it fails: request REQ9 is already in the
terminal rejected state (status 2), yet an approve review succeeds and
silently overwrites the status to approved (status 1). -/
theorem C6_counterexample :
    (updateDataRequestStatus dbC6 "REQ9" 1 (some "ok")).1 =
      Except.ok ⟨"REQ9", "IN001", "PT001", "p", 1, some "ok"⟩ ∧
    ((updateDataRequestStatus dbC6 "REQ9" 1 (some "ok")).2).data_requests =
      [⟨"REQ9", "IN001", "PT001", "p", 1, some "ok"⟩] ∧
    dbC6.data_requests =
      [⟨"REQ9", "IN001", "PT001", "p", 2, some "denied"⟩] := by
  decide

/-- Claim C6, amended. Reviewing an absent request fails with a not-found
error and changes nothing; reviewing any existing request succeeds
unconditionally as a read-then-write pair that overwrites the stored
status — the update carries no pending-status condition and no
affected-row check, so terminal states are silently overwritten. -/
theorem C6_review_unconditional (db : DB) (id : String) (status : Nat)
    (notes : Option String) :
    (db.data_requests.find? (fun r => r.request_id == id) = none →
      (updateDataRequestStatus db id status notes).1 =
        Except.error ⟨"Data request not found", 500⟩ ∧
      (updateDataRequestStatus db id status notes).2 = db) ∧
    (∀ row, db.data_requests.find? (fun r => r.request_id == id) = some row →
      (updateDataRequestStatus db id status notes).1 =
        Except.ok { row with status := status, response_notes := notes } ∧
      ((updateDataRequestStatus db id status notes).2).data_requests =
        db.data_requests.map (fun r =>
          if r.request_id == id then
            { r with status := status, response_notes := notes } else r)) := by
  constructor
  · intro h
    simp [updateDataRequestStatus, h]
  · intro row h
    simp [updateDataRequestStatus, h]

/-- Claim C6, amended, witness: an unknown request id is refused with the
not-found error, and a review against the already-rejected request REQ9
succeeds with the overwritten status. -/
theorem C6_review_unconditional_witness :
    (updateDataRequestStatus dbC6 "NOPE" 1 none).1 =
      Except.error ⟨"Data request not found", 500⟩ ∧
    (updateDataRequestStatus dbC6 "REQ9" 0 none).1 =
      Except.ok ⟨"REQ9", "IN001", "PT001", "p", 0, none⟩ := by
  have h1 : dbC6.data_requests.find? (fun r => r.request_id == "NOPE") =
      none := by decide
  have h2 : dbC6.data_requests.find? (fun r => r.request_id == "REQ9") =
      some ⟨"REQ9", "IN001", "PT001", "p", 2, some "denied"⟩ := by decide
  exact ⟨((C6_review_unconditional dbC6 "NOPE" 1 none).1 h1).1,
    ((C6_review_unconditional dbC6 "REQ9" 0 none).2
      ⟨"REQ9", "IN001", "PT001", "p", 2, some "denied"⟩ h2).1⟩

/-- Claim C7, counterexample. The claim states that decryption is the
identity on every legacy plaintext that does not match the ciphertext
structural heuristic (`isLikelyEncrypted`). The string `abc` does not
match the heuristic (shorter than 32 hex characters), yet `decrypt` does
not return it: the internal guard of `decrypt` accepts any nonempty hex
string, routes `abc` into block decryption, which fails on the one decoded
byte, and the failure sentinel is returned instead of the input. -/
theorem C7_counterexample :
    isLikelyEncrypted "abc" = false ∧
    decrypt "abc" = "[Encrypted content]" ∧
    ("abc" : String) ≠ "[Encrypted content]" := by
  decide

/-- Claim C7, amended. Decryption inverts encryption on every field value,
and decryption is the identity on every input that fails the internal
`/^[0-9a-f]+$/i` guard of `decrypt` (a character outside the hex alphabet,
or the empty string) — but not on every input that merely fails the
32-character `isLikelyEncrypted` heuristic, as the counterexample shows. -/
theorem C7_cipher_roundtrip (v p : String) (hp : hexOnly p = false) :
    decrypt (encrypt v) = v ∧ decrypt p = p :=
  ⟨decrypt_encrypt v, decrypt_id_nonhex p hp⟩

/-- Claim C7, amended, witness: the round trip at a concrete value and the
identity at a concrete non-hex legacy plaintext. -/
theorem C7_cipher_roundtrip_witness :
    hexOnly "hello!" = false ∧
    (decrypt (encrypt "TrustMed") = "TrustMed" ∧
      decrypt "hello!" = "hello!") :=
  ⟨by decide, C7_cipher_roundtrip "TrustMed" "hello!" (by decide)⟩

/-- Claim C8, counterexample. The claim states that a failed decryption
returns the fixed sentinel string `[unavailable]`. On the code the
sentinel is `[Encrypted content]`: decrypting the corrupt one-byte
ciphertext `ab` yields `[Encrypted content]`, which differs from the
sentinel the claim names. -/
theorem C8_counterexample :
    decrypt "ab" = "[Encrypted content]" ∧
    ("[Encrypted content]" : String) ≠ "[unavailable]" := by
  decide

/-- Claim C8, amended. Decryption never raises: on every input that passes
the hex guard but fails block decryption (corrupt ciphertext) it returns
the fixed sentinel `[Encrypted content]`; and the record-list query maps
every stored row to an output row, so a bad row never fails or shrinks a
list query. -/
theorem C8_decrypt_sentinel (s : String) (h1 : hexOnly s = true)
    (h2 : aesDecBytes (hexDecode s.toList) = none) :
    decrypt s = "[Encrypted content]" ∧
    ∀ db : DB, (getAllRecords db).length = db.records.length := by
  constructor
  · have hs : s ≠ "" := by
      intro h
      subst h
      simp [hexOnly] at h1
    rw [decrypt, if_neg (by simp [hs, encryptionDisabled]),
      if_neg (by simp [h1]), h2]
  · intro db
    simp [getAllRecords]

/-- Claim C8, amended, witness: the corrupt ciphertext `ab` produces the
sentinel, and the list query over the empty store keeps its length. -/
theorem C8_decrypt_sentinel_witness :
    decrypt "ab" = "[Encrypted content]" ∧
    (getAllRecords dbEmpty).length = dbEmpty.records.length :=
  ⟨(C8_decrypt_sentinel "ab" (by decide) (by decide)).1,
    (C8_decrypt_sentinel "ab" (by decide) (by decide)).2 dbEmpty⟩

/-- Claim C9. The audit recorder never raises into the caller: when the
underlying INSERT fails, `logAudit` returns the absent identifier and
leaves the store untouched, and the outcome of an invoking operation (the
insurance read path) is the same whether the audit INSERT succeeds or
fails. -/
theorem C9_audit_never_raises (db : DB) (row : AuditLogRow)
    (reqId insId : String) :
    (logAudit db false row).1 = none ∧
    (logAudit db false row).2 = db ∧
    (getApprovedRecords db true reqId insId).1 =
      (getApprovedRecords db false reqId insId).1 := by
  refine ⟨rfl, rfl, ?_⟩
  simp only [getApprovedRecords]
  cases (db.data_requests.filter (fun r =>
      r.request_id == reqId && r.company_id == insId && r.status == 1)) <;>
    simp

/-- Claim C10. The structural heuristic has a false-positive boundary at
hex-shaped values: a legacy plaintext of 32 hex characters (here 32
zeros, never encrypted) is classified as ciphertext by
`isLikelyEncrypted`, and `decrypt` does not return it unchanged — it is
routed through block decryption and comes back as the failure sentinel. -/
theorem C10_hex_plaintext_false_positive :
    isLikelyEncrypted "00000000000000000000000000000000" = true ∧
    decrypt "00000000000000000000000000000000" = "[Encrypted content]" ∧
    ("00000000000000000000000000000000" : String) ≠ "[Encrypted content]" := by
  decide

end TrustMed
